import Mathlib

/-!
Verification of the checkmk livestatus query engine against its
natural-language specification.

The development shallowly embeds the relevant parts of the C++ sources:

* `src/livestatus/src/RRDColumn.cc` — the time-series extractor:
  `RRDColumnArgs::RRDColumnArgs` (argument parsing), the RPN rewriting loop
  of `RRDDataMaker::make`, and the post-processing of the `rrd_xport`
  result (`Data::as_vector`).
* `src/packages/livestatus/src/TableEventConsole.cc` — the protocol
  bridge: `ECTableConnection::sendRequest` (request construction),
  `ECTableConnection::receiveReply` (reply scan), and
  `TableEventConsole::answerQuery` (error handling).
* `src/livestatus/src/TableServiceGroups.cc` — the local table scan
  `TableServiceGroups::answerQuery`.

C strings are modelled as Lean `String`/`List Char`; machine integers
(`long`, `int`, `time_t`) are modelled as unbounded `Int` (overflow is not
exercised by any claim); `double` sample values are opaque and carried as a
type parameter.  External collaborators (the `rrd_xport` library call, the
`Query` bound-extraction interface, the metric-location lookup and the
authorization predicate) enter as explicit parameters, exactly as wide as
the interface the embedded code consumes.
-/

/-! ### The `next_token` tokenizer (livestatus strutil)

`next_token(&scan, delim)` returns `nullptr` once the scan position reaches
the end of the buffer, otherwise the (possibly empty) run of characters up
to the next delimiter, consuming the delimiter.  Consequently an input that
ends right after a delimiter yields no further token (no trailing empty
token), while an empty input yields no token at all.  `tokenSplit` realizes
exactly that token sequence. -/

def tokenSplit (delim : Char) (cur : List Char) : List Char → List (List Char)
  | [] => [cur.reverse]
  | c :: rest =>
    if c = delim then
      match rest with
      | [] => [cur.reverse]
      | _ :: _ => cur.reverse :: tokenSplit delim [] rest
    else tokenSplit delim (c :: cur) rest

def nextTokens (delim : Char) (s : List Char) : List (List Char) :=
  match s with
  | [] => []
  | _ :: _ => tokenSplit delim [] s

/-- String-level wrapper for `nextTokens`. -/
def nextTokensS (delim : Char) (s : String) : List String :=
  (nextTokens delim s.data).map List.asString

/-! ### `atol`/`atoi`

Both parse an optional run of C whitespace, an optional sign and a maximal
run of decimal digits, ignoring any trailing garbage; no digits means 0.
The model uses unbounded `Int` (the overflow behaviour of the C functions
is undefined and not exercised by the claims). -/

def isCSpace (c : Char) : Bool :=
  c = ' ' || c = '\t' || c = '\n' || c = '\x0b' || c = '\x0c' || c = '\r'

def digitPrefixVal (cs : List Char) : Nat :=
  (cs.takeWhile Char.isDigit).foldl (fun a c => a * 10 + (c.toNat - 48)) 0

def atol (s : String) : Int :=
  match s.data.dropWhile isCSpace with
  | '-' :: rest => - (Int.ofNat (digitPrefixVal rest))
  | '+' :: rest => Int.ofNat (digitPrefixVal rest)
  | cs => Int.ofNat (digitPrefixVal cs)

/-! ### `RRDColumnArgs` construction (RRDColumn.cc lines 35-88)

The constructor splits `expression:start:end:resolution[:max_entries]` on
colons via `next_token` and throws `std::runtime_error` on the first
violated check; the model returns `Except String RRDColumnArgs` with the
exact message of the source.  Construction is a pure function of the
argument string: it happens before (and independently of) any external
call. -/

structure RRDColumnArgs where
  rpn : String
  start_time : Int
  end_time : Int
  resolution : Int
  max_entries : Int
deriving DecidableEq, Repr

def rrdInvalidMsg (column_name message : String) : String :=
  "invalid arguments for column \x27" ++ column_name ++ ": " ++ message

def parseRRDArgsToks (toks : List String) (column_name : String) :
    Except String RRDColumnArgs :=
  let invalid := fun m => Except.error (rrdInvalidMsg column_name m)
  match toks with
  | [] => invalid "missing RPN expression for RRD"
  | rpn :: rest =>
    if rpn = "" then invalid "missing RPN expression for RRD" else
    match rest with
    | [] => invalid "missing, negative or overflowed start time"
    | start_time :: rest =>
      if start_time = "" ∨ atol start_time ≤ 0 then
        invalid "missing, negative or overflowed start time" else
      match rest with
      | [] => invalid " missing, negative or overflowed end time"
      | end_time :: rest =>
        if end_time = "" ∨ atol end_time ≤ 0 then
          invalid " missing, negative or overflowed end time" else
        match rest with
        | [] => invalid "missing or negative resolution"
        | resolution :: rest =>
          if resolution = "" ∨ atol resolution ≤ 0 then
            invalid "missing or negative resolution" else
          match rest with
          | [] =>
            -- max_entries omitted: the source substitutes the RRDTool
            -- default "400", which passes the `< 10` check
            Except.ok ⟨rpn, atol start_time, atol end_time, atol resolution,
                       400⟩
          | max_entries :: rest =>
            if max_entries = "" ∨ atol max_entries < 10 then
              invalid "Wrong input for max rows" else
            match rest with
            | [] => Except.ok ⟨rpn, atol start_time, atol end_time,
                               atol resolution, atol max_entries⟩
            | _ :: _ => invalid "too many arguments"

def RRDColumnArgs.parse (arguments column_name : String) :
    Except String RRDColumnArgs :=
  parseRRDArgsToks (nextTokensS ':' arguments) column_name

/-! Predicates naming the per-field validity checks of the constructor,
phrased over the colon token list (`numFieldOk` covers the shared
"present, non-empty, parses to a positive number" check of the start, end
and resolution fields). -/

def rpnFieldOk (toks : List String) : Prop :=
  match toks[0]? with
  | none => False
  | some s => s ≠ ""

def numFieldOk (tok : Option String) : Prop :=
  match tok with
  | none => False
  | some s => s ≠ "" ∧ 0 < atol s

def maxFieldOk (toks : List String) : Prop :=
  match toks[4]? with
  | none => True
  | some s => s ≠ "" ∧ 10 ≤ atol s

def noTrailingTok (toks : List String) : Prop := toks[5]? = none

instance (toks : List String) : Decidable (rpnFieldOk toks) :=
  match h : toks[0]? with
  | none => .isFalse (by simp [rpnFieldOk, h])
  | some s => decidable_of_iff (s ≠ "") (by simp [rpnFieldOk, h])

instance (tok : Option String) : Decidable (numFieldOk tok) :=
  match tok with
  | none => .isFalse (fun hf => hf)
  | some s => decidable_of_iff (s ≠ "" ∧ 0 < atol s) Iff.rfl

instance (toks : List String) : Decidable (maxFieldOk toks) :=
  match h : toks[4]? with
  | none => .isTrue (by simp [maxFieldOk, h])
  | some s => decidable_of_iff (s ≠ "" ∧ 10 ≤ atol s) (by simp [maxFieldOk, h])

instance (toks : List String) : Decidable (noTrailingTok toks) :=
  decidable_of_iff (toks[5]? = none) Iff.rfl

/-! ### The `rrd_xport` result extraction (RRDColumn.cc lines 162-181 and
334-403)

`RRDDataMaker::make` hands an argv vector to the external `rrd_xport`
call, which reports a status, a time window `[start, end]` snapped to the
archive grid, a step, a column count and a buffer of doubles.  The call is
external, so its outcome enters the model as an `XportResult` value; the
buffer is a total function `Nat → α` (a pointer that the loop may read at
any offset), and the sample type `α` is opaque (no arithmetic is performed
on samples).  `time_t`/`time_point` values are seconds since the epoch as
`Int`; a default-constructed `Data` holds the epoch and step 0. -/

structure XportResult (α : Type) where
  status : Int
  start : Int
  end_ : Int
  step : Nat
  col_cnt : Nat
  buffer : Nat → α
  errorMsg : String

/-- One element of the extractor's output row: the C++
`std::variant<time_point, unsigned long, double>`. -/
inductive RRDValue (α : Type) where
  | timePoint (t : Int)
  | stepVal (n : Nat)
  | sample (x : α)
deriving DecidableEq

/-- Log events emitted by `RRDDataMaker::make` after the export call:
`Warning << "Error accessing RRD: " << rrd_get_error()` on non-zero
status, `Error << "rrd_xport returned N columns, ..."` on a column-count
mismatch. -/
inductive RRDLog where
  | accessError (msg : String)
  | colCountMismatch (n : Nat)
deriving DecidableEq

/-- The `Data` aggregate of RRDColumn.cc (start, end, step, values). -/
structure RRDData (α : Type) where
  start : Int
  end_ : Int
  step : Nat
  values : List α

/-- `Data::as_vector`: meta data first — start and end shifted by the
timezone offset, then the step — followed by the sample values. -/
def RRDData.as_vector {α : Type} (d : RRDData α) (timezone_offset : Int) :
    List (RRDValue α) :=
  RRDValue.timePoint (d.start + timezone_offset) ::
    RRDValue.timePoint (d.end_ + timezone_offset) ::
      RRDValue.stepVal d.step ::
        d.values.map RRDValue.sample

/-- The value-collection loop
`for (time_t ti = start + step; ti <= end; ti += step) push(*ptr++)`.
The source does not terminate when `step = 0` and `ti ≤ end`; the model
returns `[]` in that (unreachable, externally excluded) configuration. -/
def xportValues {α : Type} (buffer : Nat → α) (end_ : Int) (step : Nat)
    (ti : Int) (idx : Nat) : List α :=
  if step = 0 then []
  else if ti ≤ end_ then
    buffer idx :: xportValues buffer end_ step (ti + step) (idx + 1)
  else []
termination_by (end_ + 1 - ti).toNat
decreasing_by
  simp_wf
  omega

/-- The timestamps visited by the same loop, used to state the grid-point
property. -/
def xportTimes (end_ : Int) (step : Nat) (ti : Int) : List Int :=
  if step = 0 then []
  else if ti ≤ end_ then ti :: xportTimes end_ step (ti + step)
  else []
termination_by (end_ + 1 - ti).toNat
decreasing_by
  simp_wf
  omega

/-- Lines 334-403 of `RRDDataMaker::make`: on non-zero status log the
access error and keep the default `Data`; on a column count other than one
log the mismatch and keep the default `Data`; otherwise fill `Data` from
the returned window and buffer.  Every path ends in `as_vector`. -/
def rrdProcessXport {α : Type} (res : XportResult α) (timezone_offset : Int) :
    List RRDLog × List (RRDValue α) :=
  let data0 : RRDData α := ⟨0, 0, 0, []⟩
  if res.status ≠ 0 then
    ([RRDLog.accessError res.errorMsg], data0.as_vector timezone_offset)
  else if res.col_cnt ≠ 1 then
    ([RRDLog.colCountMismatch res.col_cnt], data0.as_vector timezone_offset)
  else
    ([],
     (⟨res.start, res.end_, res.step,
       xportValues res.buffer res.end_ res.step (res.start + res.step) 0⟩ :
         RRDData α).as_vector timezone_offset)

/-! ### The RPN rewriting loop (RRDColumn.cc lines 122-160 and 215-262)

`RRDDataMaker::make` tokenizes the RPN expression on `,` and rebuilds it:
numeric/operator tokens pass through, metric-variable tokens are resolved
through `MonitoringCore::metricLocation` (an external lookup, a parameter
here) and replaced either by a fresh `var_N` name with a recorded
`DEF:var_N=path:ds:CF` argv entry, or — when the metric has no storage
location — by the dot-to-underscore sanitized variable name with no entry
recorded.  The model instruments the loop state with the per-token
rewritten names (`rewritten`), which the source only ever concatenates
into `converted_rpn`. -/

structure MetricLocation where
  path : String
  data_source_name : String

def isOperatorChar (c : Char) : Bool :=
  c = '+' || c = '-' || c = '/' || c = '*'

def isNumberPartChar (c : Char) : Bool :=
  c.isDigit || c = '.'

/-- `isVariableName`: a token is a variable unless its first character is
an arithmetic operator or it consists of digits and dots only.  For the
empty token, `token[0]` reads the NUL terminator, which `strchr` finds in
the operator set, so the empty token is *not* a variable. -/
def isVariableName (token : String) : Bool :=
  match token.data with
  | [] => false
  | c :: _ => !(isOperatorChar c || token.data.all isNumberPartChar)

/-- `replace_all(str, ".", '_')`: `find_first_of` over a one-character set
is a character-wise replacement. -/
def replace_all (str chars : String) (replacement : Char) : String :=
  ⟨str.data.map (fun c => if chars.data.contains c then replacement else c)⟩

/-- Splits a character list at its last dot: `some (head, dot-tail)` where
`dot-tail` starts with the last `.` of the input (C++ `find_last_of`). -/
def splitAtLastDot : List Char → Option (List Char × List Char)
  | [] => none
  | c :: rest =>
    match splitAtLastDot rest with
    | some (h, t) => some (c :: h, t)
    | none => if c = '.' then some ([], c :: rest) else none

/-- `getVarAndCF`: a `.max`/`.min`/`.average` suffix selects the
consolidation function and is stripped; anything else keeps the whole
token and the default MAX. -/
def getVarAndCF (str : String) : String × String :=
  match splitAtLastDot str.data with
  | some (head, tail) =>
    if tail.asString = ".max" then (head.asString, "MAX")
    else if tail.asString = ".min" then (head.asString, "MIN")
    else if tail.asString = ".average" then (head.asString, "AVERAGE")
    else (str, "MAX")
  | none => (str, "MAX")

/-- `std::set` insertion, modelled as append-if-absent (ordering of the
set is irrelevant to every claim). -/
def insertUnique (l : List String) (x : String) : List String :=
  if x ∈ l then l else l ++ [x]

/-- The loop state of the conversion: `converted_rpn`,
`next_variable_number`, the `DEF:` argv entries, the touched RRD paths,
and the instrumentation list of rewritten tokens. -/
structure RPNState where
  converted_rpn : String
  next_variable_number : Nat
  defs : List String
  touched_rrds : List String
  rewritten : List String
deriving DecidableEq

/-- One iteration of the token loop of `RRDDataMaker::make` (lines
226-262), with the metric-location lookup for the host/service fixed as
`metricLocation`. -/
def rpnStep (metricLocation : String → MetricLocation) (st : RPNState)
    (token : String) : RPNState :=
  let st := { st with converted_rpn :=
    if st.converted_rpn = "" then st.converted_rpn
    else st.converted_rpn ++ "," }
  if !isVariableName token then
    { st with converted_rpn := st.converted_rpn ++ token,
              rewritten := st.rewritten ++ [token] }
  else
    let vcf := getVarAndCF token
    let location := metricLocation vcf.1
    if location.path = "" || location.data_source_name = "" then
      let rrd_varname := replace_all vcf.1 "." '_'
      { st with converted_rpn := st.converted_rpn ++ rrd_varname,
                rewritten := st.rewritten ++ [rrd_varname] }
    else
      let n := st.next_variable_number + 1
      let rrd_varname := "var_" ++ toString n
      { st with
          converted_rpn := st.converted_rpn ++ rrd_varname,
          next_variable_number := n,
          defs := st.defs ++
            ["DEF:" ++ rrd_varname ++ "=" ++ location.path ++ ":" ++
             location.data_source_name ++ ":" ++ vcf.2],
          touched_rrds := insertUnique st.touched_rrds location.path,
          rewritten := st.rewritten ++ [rrd_varname] }

/-- The whole conversion loop over the comma token list of the RPN
expression. -/
def convertRPN (metricLocation : String → MetricLocation) (rpn : String) :
    RPNState :=
  (nextTokensS ',' rpn).foldl (rpnStep metricLocation) ⟨"", 0, [], [], []⟩

/-- Whether a token is rewritten through the resolved-metric branch. -/
def tokenResolves (metricLocation : String → MetricLocation)
    (token : String) : Bool :=
  isVariableName token &&
    !((metricLocation (getVarAndCF token).1).path = "" ||
      (metricLocation (getVarAndCF token).1).data_source_name = "")

/-- The rewritten token sequence, specified recursively with an explicit
variable counter. -/
def specRewritten (metricLocation : String → MetricLocation)
    (counter : Nat) : List String → List String
  | [] => []
  | t :: ts =>
    if tokenResolves metricLocation t then
      ("var_" ++ toString (counter + 1)) ::
        specRewritten metricLocation (counter + 1) ts
    else if isVariableName t then
      replace_all (getVarAndCF t).1 "." '_' ::
        specRewritten metricLocation counter ts
    else
      t :: specRewritten metricLocation counter ts

/-- The recorded `DEF:` entries, specified recursively. -/
def specDefs (metricLocation : String → MetricLocation)
    (counter : Nat) : List String → List String
  | [] => []
  | t :: ts =>
    if tokenResolves metricLocation t then
      ("DEF:" ++ ("var_" ++ toString (counter + 1)) ++ "=" ++
       (metricLocation (getVarAndCF t).1).path ++ ":" ++
       (metricLocation (getVarAndCF t).1).data_source_name ++ ":" ++
       (getVarAndCF t).2) ::
        specDefs metricLocation (counter + 1) ts
    else specDefs metricLocation counter ts

/-- The paths of resolved tokens, in loop order. -/
def specPaths (metricLocation : String → MetricLocation) :
    List String → List String
  | [] => []
  | t :: ts =>
    if tokenResolves metricLocation t then
      (metricLocation (getVarAndCF t).1).path :: specPaths metricLocation ts
    else specPaths metricLocation ts

/-- The number of resolved tokens. -/
def resolvedCount (metricLocation : String → MetricLocation)
    (toks : List String) : Nat :=
  (toks.filter (tokenResolves metricLocation)).length

/-- The `converted_rpn` string accumulation: append with a separating
comma unless the accumulator is still empty. -/
def joinTok (acc t : String) : String :=
  (if acc = "" then acc else acc ++ ",") ++ t

/-- Comma-joining of a token list (the shape `converted_rpn` takes when no
rewritten token is empty). -/
def joinComma : List String → String
  | [] => ""
  | t :: ts => ts.foldl (fun a b => a ++ "," ++ b) t

/-- Example metric resolver: `fs_used` stored at `/p/fs_used.rrd`, data
source `1`; everything else unresolved. -/
def exampleResolver : String → MetricLocation := fun v =>
  if v = "fs_used" then ⟨"/p/fs_used.rrd", "1"⟩ else ⟨"", ""⟩

/-- Example metric resolver under which the metric literally named `var_1`
resolves. -/
def collidingResolver : String → MetricLocation := fun v =>
  if v = "var_1" then ⟨"p", "d"⟩ else ⟨"", ""⟩

/-! ### The event-console protocol bridge (TableEventConsole.cc)

`ECTableConnection::sendRequest` renders the request as lines: `GET`, the
output format, the `Columns:` header, the time-range filters and the
grepping filters.  The `Query` side of the interface
(`allColumns`, `greatestLowerBoundFor`, `leastUpperBoundFor`,
`stringValueRestrictionFor`, `partialFilter(...)->conjuncts()`) lives
outside the shown sources and enters as an abstract record of functions;
the emission logic under verification is exactly the one of
TableEventConsole.cc.  The textual rendering of relational operators
(`operator<<` from opids, also outside the shown sources) is modelled from
the spec's livestatus operator syntax. -/

inductive RelationalOperator where
  | equal
  | not_equal
  | matches
  | doesnt_match
  | equal_icase
  | not_equal_icase
  | matches_icase
  | doesnt_match_icase
  | less
  | greater_or_equal
  | greater
  | less_or_equal
deriving DecidableEq

/-- Modelled from the spec: the livestatus textual form of each
relational operator, used when a filter is forwarded verbatim
(`os << column_filter->oper()`; opids.cc is not among the shown
sources). -/
def opString : RelationalOperator → String
  | .equal => "="
  | .not_equal => "!="
  | .matches => "~"
  | .doesnt_match => "!~"
  | .equal_icase => "=~"
  | .not_equal_icase => "!=~"
  | .matches_icase => "~~"
  | .doesnt_match_icase => "!~~"
  | .less => "<"
  | .greater_or_equal => ">="
  | .greater => ">"
  | .less_or_equal => "<="

/-- The switch of `emitGreppingFilter`: operators a filter may be
forwarded verbatim with. -/
def forwardableOp : RelationalOperator → Bool
  | .equal => true
  | .matches => true
  | .equal_icase => true
  | .matches_icase => true
  | _ => false

/-- One conjunct of `partialFilter(...)->conjuncts()`: either a column
filter (with `oper()` and `value()`) or some other sub-tree for which
`as_column_filter()` returns null. -/
inductive Conjunct where
  | columnFilter (oper : RelationalOperator) (value : String)
  | other
deriving DecidableEq

/-- The slice of the `Query` interface consumed by `ECTableConnection`
(implemented outside the shown sources, hence abstract here). -/
structure ECQuery where
  allColumns : List String
  greatestLowerBoundFor : String → Option Int
  leastUpperBoundFor : String → Option Int
  stringValueRestrictionFor : String → Option String
  conjunctsFor : String → List Conjunct

/-- The slice of the `Table` interface consumed by `ECTableConnection`:
its name and the names of its declared columns (in declaration order, as
`any_column` iterates them). -/
structure ECTable where
  name : String
  columns : List String

/-- A line of the bridge request, structured. -/
inductive RequestLine where
  | get (table : String)
  | outputFormat
  | columnsHeader (cols : List String)
  | filterLine (column op value : String)
deriving DecidableEq

/-- The `grepping_filters` allow-list (kept in sync with the EC). -/
def grepping_filters : List String :=
  ["event_id", "event_text", "event_comment", "event_host",
   "event_contact", "event_application", "event_rule_id", "event_owner",
   "event_ipaddress", "event_core_host"]

/-- The special columns added regardless of the query (see
`emitColumnsHeader`): the host identification and the two
authorization-context columns. -/
def special_columns : List String :=
  ["event_host", "event_contact_groups_precedence", "event_contact_groups"]

/-- `mk::starts_with` (StringUtils, outside the shown sources): literal
character-wise comparison against the candidate head of the string. -/
def starts_with (s pre : String) : Bool :=
  s.data.take pre.data.length == pre.data

/-- `emitColumnsHeader`: start from the query's columns, add each declared
special column, then drop every `host_`-prefixed name.  (The source keeps
the columns in an unordered set; the model keeps first-insertion order,
which no claim depends on.) -/
def ecRequestColumns (table : ECTable) (query : ECQuery) : List String :=
  let all := table.columns.foldl
    (fun acc c => if c ∈ special_columns then insertUnique acc c else acc)
    query.allColumns
  all.filter (fun c => !(starts_with c "host_"))

/-- `emitTimeRangeFilter`: a `>=` line for a derived greatest lower bound
and a `<=` line for a derived least upper bound on `history_time`. -/
def emitTimeRangeFilter (query : ECQuery) : List RequestLine :=
  (match query.greatestLowerBoundFor "history_time" with
   | some glb => [RequestLine.filterLine "history_time" ">=" (toString glb)]
   | none => []) ++
  (match query.leastUpperBoundFor "history_time" with
   | some lub => [RequestLine.filterLine "history_time" "<=" (toString lub)]
   | none => [])

/-- The fall-through part of `emitGreppingFilter`'s loop body: an `=`
filter when the column is pinned to one exact value, via the string-value
restriction or via coinciding bounds. -/
def emitPinnedFilter (query : ECQuery) (column_name : String) :
    List RequestLine :=
  match query.stringValueRestrictionFor column_name with
  | some svr => [RequestLine.filterLine column_name "=" svr]
  | none =>
    match query.greatestLowerBoundFor column_name,
          query.leastUpperBoundFor column_name with
    | some glb, some lub =>
      if glb = lub then [RequestLine.filterLine column_name "=" (toString glb)]
      else []
    | _, _ => []

/-- One iteration of `emitGreppingFilter`: forward verbatim (and
`continue`) when the partial filter is exactly one column filter with a
forwardable operator; otherwise fall through to the pinned-value check. -/
def emitGreppingFilterFor (query : ECQuery) (column_name : String) :
    List RequestLine :=
  match query.conjunctsFor column_name with
  | [Conjunct.columnFilter oper value] =>
    if forwardableOp oper then
      [RequestLine.filterLine column_name (opString oper) value]
    else emitPinnedFilter query column_name
  | _ => emitPinnedFilter query column_name

/-- Sequential emission over a column list (the `for` loops of the
emitters). -/
def emitForEach (f : String → List RequestLine) :
    List String → List RequestLine
  | [] => []
  | c :: cs => f c ++ emitForEach f cs

def emitGreppingFilter (query : ECQuery) : List RequestLine :=
  emitForEach (emitGreppingFilterFor query) grepping_filters

/-- `ECTableConnection::sendRequest`, as the structured line list: `GET`
with the `eventconsole` prefix stripped from the table name, the plain
output format, the columns header, then the time-range and grepping
filters. -/
def sendRequest (table : ECTable) (query : ECQuery) : List RequestLine :=
  RequestLine.get (table.name.drop 12) ::
    RequestLine.outputFormat ::
      RequestLine.columnsHeader (ecRequestColumns table query) ::
        (emitTimeRangeFilter query ++ emitGreppingFilter query)

/-- The per-column emission as the claim words it: verbatim forwarding
exactly when the partial filter reduces to one comparison with operator
equal / matches / equal-icase / matches-icase, otherwise an `=` filter
exactly when the column is pinned to a single exact value (string-value
restriction, or equal greatest-lower and least-upper bounds), otherwise
nothing. -/
def greppingFilterSpec (query : ECQuery) (column_name : String) :
    List RequestLine :=
  match query.conjunctsFor column_name with
  | [Conjunct.columnFilter oper value] =>
    if oper = .equal ∨ oper = .matches ∨ oper = .equal_icase ∨
        oper = .matches_icase then
      [RequestLine.filterLine column_name (opString oper) value]
    else
      match query.stringValueRestrictionFor column_name with
      | some svr => [RequestLine.filterLine column_name "=" svr]
      | none =>
        match query.greatestLowerBoundFor column_name,
              query.leastUpperBoundFor column_name with
        | some glb, some lub =>
          if glb = lub then
            [RequestLine.filterLine column_name "=" (toString glb)]
          else []
        | _, _ => []
  | _ =>
    match query.stringValueRestrictionFor column_name with
    | some svr => [RequestLine.filterLine column_name "=" svr]
    | none =>
      match query.greatestLowerBoundFor column_name,
            query.leastUpperBoundFor column_name with
      | some glb, some lub =>
        if glb = lub then
          [RequestLine.filterLine column_name "=" (toString glb)]
        else []
      | _, _ => []

/-- Concrete query for the C4 witness: `history_time` bounded by
`[123, 456]` and a single `event_id = 42` comparison. -/
def pushdownWitnessQuery : ECQuery :=
  ⟨["event_text"],
   fun c => if c = "history_time" then some 123 else none,
   fun c => if c = "history_time" then some 456 else none,
   fun _ => none,
   fun c => if c = "event_id" then [Conjunct.columnFilter .equal "42"]
            else []⟩

/-- Concrete table for the C4 witness. -/
def pushdownWitnessTable : ECTable :=
  ⟨"eventconsolehistory",
   ["event_id", "event_text", "event_host",
    "event_contact_groups_precedence", "event_contact_groups"]⟩

/-! ### Table scans (TableServiceGroups.cc lines 156-168,
TableEventConsole.cc lines 164-184)

Both scans walk their row source, skip rows the authorization predicate
rejects, hand accepted rows to `query.processDataset` and stop at the
first `false`.  The model instruments each loop with the rows handed to
`processDataset` (first component) and the rows whose authorization was
evaluated (second component); the source performs these calls for their
effects.  The authorization predicate and `processDataset` are external
collaborators and enter as parameters. -/

/-- `TableServiceGroups::answerQuery`: iterate the group list; for each
row evaluate `!user.is_authorized_for_service_group(..) ||
query.processDataset(..)` and stop on `false`.  Returns (processed rows,
authorization-checked rows). -/
def answerQueryScan {ρ : Type} (is_authorized process : ρ → Bool) :
    List ρ → List ρ × List ρ
  | [] => ([], [])
  | g :: rest =>
    if is_authorized g then
      if process g then
        let p := answerQueryScan is_authorized process rest
        (g :: p.1, g :: p.2)
      else ([g], [g])
    else
      let p := answerQueryScan is_authorized process rest
      (p.1, g :: p.2)

/-- The prefix of the row list up to and including the stopping row (the
first authorized row on which `processDataset` returns false). -/
def stoppedRows {ρ : Type} (is_authorized process : ρ → Bool) :
    List ρ → List ρ
  | [] => []
  | g :: rest =>
    if is_authorized g && !process g then [g]
    else g :: stoppedRows is_authorized process rest

/-- An event-console reply row: the header-to-field map built by the
`ECRow` constructor, which pairs each header with the next reply field
while fields remain. -/
def buildECRow (headers columns : List String) : List (String × String) :=
  headers.zip columns

/-- `ECTableConnection::receiveReply`: read lines until the stream ends or
a line is empty; the first line is the tab-separated header; every further
line becomes an `ECRow`, is authorization-checked, and processing stops on
the first `false` from `processDataset`.  State: `is_header` flag and the
current headers. -/
def receiveReplyScan (is_authorized process : List (String × String) → Bool) :
    Bool → List String → List String →
      List (List (String × String)) × List (List (String × String))
  | _, _, [] => ([], [])
  | is_header, headers, line :: rest =>
    if line = "" then ([], [])
    else if is_header then
      receiveReplyScan is_authorized process false
        (nextTokensS '\t' line) rest
    else
      let row := buildECRow headers (nextTokensS '\t' line)
      if is_authorized row then
        if process row then
          let p := receiveReplyScan is_authorized process false headers rest
          (row :: p.1, row :: p.2)
        else ([row], [row])
      else
        let p := receiveReplyScan is_authorized process false headers rest
        (p.1, row :: p.2)

def receiveReply (is_authorized process : List (String × String) → Bool)
    (lines : List String) :
    List (List (String × String)) × List (List (String × String)) :=
  receiveReplyScan is_authorized process true [] lines

/-! ### `TableEventConsole::answerQuery` (TableEventConsole.cc lines
292-301)

When the event daemon is enabled, the connection is constructed and `run`
exactly once; a `std::runtime_error` from the connection (refused, reset,
or a malformed reply surfaced by the protocol layer) is caught and
reported through `query.badGateway`.  The model records the number of
`run` invocations and the reported gateway error. -/

structure ECAnswerTrace where
  runCalls : Nat
  badGatewayMsg : Option String
deriving DecidableEq

def tableECAnswerQuery (mkeventdEnabled : Bool)
    (runOutcome : Except String Unit) : ECAnswerTrace :=
  if mkeventdEnabled then
    match runOutcome with
    | .ok _ => ⟨1, none⟩
    | .error e => ⟨1, some e⟩
  else ⟨0, none⟩

/-! ### Theorems -/

lemma parseRRD_ok_mp (toks : List String) (name : String) :
    (∃ a, parseRRDArgsToks toks name = Except.ok a) →
      (rpnFieldOk toks ∧ numFieldOk toks[1]? ∧ numFieldOk toks[2]? ∧
       numFieldOk toks[3]? ∧ maxFieldOk toks ∧ noTrailingTok toks) := by
  rcases toks with _ | ⟨rpn, _ | ⟨st, _ | ⟨en, _ | ⟨res, _ | ⟨mx, _ | ⟨x, rest⟩⟩⟩⟩⟩⟩ <;>
    simp only [parseRRDArgsToks, rpnFieldOk, numFieldOk, maxFieldOk,
      noTrailingTok, List.getElem?_cons_zero, List.getElem?_cons_succ,
      List.getElem?_nil] <;>
    (try split_ifs) <;>
    rintro ⟨a, ha⟩ <;>
    (try simp at ha) <;>
    (try push_neg at *) <;>
    simp_all

lemma parseRRD_ok_mpr (toks : List String) (name : String) :
    (rpnFieldOk toks ∧ numFieldOk toks[1]? ∧ numFieldOk toks[2]? ∧
     numFieldOk toks[3]? ∧ maxFieldOk toks ∧ noTrailingTok toks) →
      ∃ a, parseRRDArgsToks toks name = Except.ok a := by
  rcases toks with _ | ⟨rpn, _ | ⟨st, _ | ⟨en, _ | ⟨res, _ | ⟨mx, _ | ⟨x, rest⟩⟩⟩⟩⟩⟩ <;>
    simp only [parseRRDArgsToks, rpnFieldOk, numFieldOk, maxFieldOk,
      noTrailingTok, List.getElem?_cons_zero, List.getElem?_cons_succ,
      List.getElem?_nil] <;>
    (try split_ifs) <;>
    rintro ⟨h1, ⟨h2a, h2b⟩, ⟨h3a, h3b⟩, ⟨h4a, h4b⟩, h5, h6⟩ <;>
    first
      | exact ⟨_, rfl⟩
      | (simp_all; omega)
      | simp_all

lemma parseRRD_default_max (toks : List String) (name : String) :
    ∀ a, parseRRDArgsToks toks name = Except.ok a →
      toks[4]? = none → a.max_entries = 400 := by
  rcases toks with _ | ⟨rpn, _ | ⟨st, _ | ⟨en, _ | ⟨res, _ | ⟨mx, _ | ⟨x, rest⟩⟩⟩⟩⟩⟩ <;>
    simp only [parseRRDArgsToks, List.getElem?_cons_zero,
      List.getElem?_cons_succ, List.getElem?_nil] <;>
    (try split_ifs) <;>
    intro a ha h <;>
    first
      | exact ha.elim
      | exact h.elim
      | exact Except.noConfusion ha
      | exact Option.noConfusion h
      | (injection ha with h2; subst h2; rfl)

lemma parseRRD_err_rpn (toks : List String) (name : String) :
    ¬rpnFieldOk toks → parseRRDArgsToks toks name =
      Except.error (rrdInvalidMsg name "missing RPN expression for RRD") := by
  rcases toks with _ | ⟨rpn, _ | ⟨st, _ | ⟨en, _ | ⟨res, _ | ⟨mx, _ | ⟨x, rest⟩⟩⟩⟩⟩⟩ <;>
    simp only [parseRRDArgsToks, rpnFieldOk, numFieldOk, maxFieldOk,
      noTrailingTok, List.getElem?_cons_zero, List.getElem?_cons_succ,
      List.getElem?_nil] <;>
    (try split_ifs) <;>
    intros <;>
    first
      | rfl
      | trivial
      | (exfalso; simp_all; omega)
      | (exfalso; simp_all)

lemma parseRRD_err_start (toks : List String) (name : String) :
    rpnFieldOk toks → ¬numFieldOk toks[1]? → parseRRDArgsToks toks name =
      Except.error (rrdInvalidMsg name
        "missing, negative or overflowed start time") := by
  rcases toks with _ | ⟨rpn, _ | ⟨st, _ | ⟨en, _ | ⟨res, _ | ⟨mx, _ | ⟨x, rest⟩⟩⟩⟩⟩⟩ <;>
    simp only [parseRRDArgsToks, rpnFieldOk, numFieldOk, maxFieldOk,
      noTrailingTok, List.getElem?_cons_zero, List.getElem?_cons_succ,
      List.getElem?_nil] <;>
    (try split_ifs) <;>
    intros <;>
    first
      | rfl
      | trivial
      | (exfalso; simp_all; omega)
      | (exfalso; simp_all)

lemma parseRRD_err_end (toks : List String) (name : String) :
    rpnFieldOk toks → numFieldOk toks[1]? → ¬numFieldOk toks[2]? →
      parseRRDArgsToks toks name =
      Except.error (rrdInvalidMsg name
        " missing, negative or overflowed end time") := by
  rcases toks with _ | ⟨rpn, _ | ⟨st, _ | ⟨en, _ | ⟨res, _ | ⟨mx, _ | ⟨x, rest⟩⟩⟩⟩⟩⟩ <;>
    simp only [parseRRDArgsToks, rpnFieldOk, numFieldOk, maxFieldOk,
      noTrailingTok, List.getElem?_cons_zero, List.getElem?_cons_succ,
      List.getElem?_nil] <;>
    (try split_ifs) <;>
    intros <;>
    first
      | rfl
      | trivial
      | (exfalso; simp_all; omega)
      | (exfalso; simp_all)

lemma parseRRD_err_resolution (toks : List String) (name : String) :
    rpnFieldOk toks → numFieldOk toks[1]? → numFieldOk toks[2]? →
      ¬numFieldOk toks[3]? → parseRRDArgsToks toks name =
      Except.error (rrdInvalidMsg name "missing or negative resolution") := by
  rcases toks with _ | ⟨rpn, _ | ⟨st, _ | ⟨en, _ | ⟨res, _ | ⟨mx, _ | ⟨x, rest⟩⟩⟩⟩⟩⟩ <;>
    simp only [parseRRDArgsToks, rpnFieldOk, numFieldOk, maxFieldOk,
      noTrailingTok, List.getElem?_cons_zero, List.getElem?_cons_succ,
      List.getElem?_nil] <;>
    (try split_ifs) <;>
    intros <;>
    first
      | rfl
      | trivial
      | (exfalso; simp_all; omega)
      | (exfalso; simp_all)

lemma parseRRD_err_max (toks : List String) (name : String) :
    rpnFieldOk toks → numFieldOk toks[1]? → numFieldOk toks[2]? →
      numFieldOk toks[3]? → ¬maxFieldOk toks → parseRRDArgsToks toks name =
      Except.error (rrdInvalidMsg name "Wrong input for max rows") := by
  rcases toks with _ | ⟨rpn, _ | ⟨st, _ | ⟨en, _ | ⟨res, _ | ⟨mx, _ | ⟨x, rest⟩⟩⟩⟩⟩⟩ <;>
    simp only [parseRRDArgsToks, rpnFieldOk, numFieldOk, maxFieldOk,
      noTrailingTok, List.getElem?_cons_zero, List.getElem?_cons_succ,
      List.getElem?_nil] <;>
    (try split_ifs) <;>
    intros <;>
    first
      | rfl
      | trivial
      | (exfalso; simp_all; omega)
      | (exfalso; simp_all)

lemma parseRRD_err_trailing (toks : List String) (name : String) :
    rpnFieldOk toks → numFieldOk toks[1]? → numFieldOk toks[2]? →
      numFieldOk toks[3]? → maxFieldOk toks → ¬noTrailingTok toks →
      parseRRDArgsToks toks name =
      Except.error (rrdInvalidMsg name "too many arguments") := by
  rcases toks with _ | ⟨rpn, _ | ⟨st, _ | ⟨en, _ | ⟨res, _ | ⟨mx, _ | ⟨x, rest⟩⟩⟩⟩⟩⟩ <;>
    simp only [parseRRDArgsToks, rpnFieldOk, numFieldOk, maxFieldOk,
      noTrailingTok, List.getElem?_cons_zero, List.getElem?_cons_succ,
      List.getElem?_nil] <;>
    (try split_ifs) <;>
    intros <;>
    first
      | rfl
      | trivial
      | (exfalso; simp_all; omega)
      | (exfalso; simp_all)

/-- C1: constructing `RRDColumnArgs` from the colon-separated encoding
`expression:start:end:resolution[:max_entries]` succeeds exactly when the
expression token is non-empty, the start, end and resolution tokens are
present and parse (via `atol`) to positive numbers, and the max-entries
token, when supplied, parses to a value of at least 10; when it is omitted
the constructed `max_entries` is 400; each violation — a bad field or a
trailing unparsed token — makes construction fail with the source's error
message naming the failing field.  `RRDColumnArgs.parse` is a pure
function of the argument string alone, so the failure happens before any
external call. -/
theorem rrd_args_construction_iff (arguments column_name : String) :
    ((∃ a, RRDColumnArgs.parse arguments column_name = Except.ok a) ↔
      (rpnFieldOk (nextTokensS ':' arguments) ∧
       numFieldOk (nextTokensS ':' arguments)[1]? ∧
       numFieldOk (nextTokensS ':' arguments)[2]? ∧
       numFieldOk (nextTokensS ':' arguments)[3]? ∧
       maxFieldOk (nextTokensS ':' arguments) ∧
       noTrailingTok (nextTokensS ':' arguments))) ∧
    (∀ a, RRDColumnArgs.parse arguments column_name = Except.ok a →
       (nextTokensS ':' arguments)[4]? = none → a.max_entries = 400) ∧
    (¬rpnFieldOk (nextTokensS ':' arguments) →
       RRDColumnArgs.parse arguments column_name =
         Except.error (rrdInvalidMsg column_name
           "missing RPN expression for RRD")) ∧
    (rpnFieldOk (nextTokensS ':' arguments) →
     ¬numFieldOk (nextTokensS ':' arguments)[1]? →
       RRDColumnArgs.parse arguments column_name =
         Except.error (rrdInvalidMsg column_name
           "missing, negative or overflowed start time")) ∧
    (rpnFieldOk (nextTokensS ':' arguments) →
     numFieldOk (nextTokensS ':' arguments)[1]? →
     ¬numFieldOk (nextTokensS ':' arguments)[2]? →
       RRDColumnArgs.parse arguments column_name =
         Except.error (rrdInvalidMsg column_name
           " missing, negative or overflowed end time")) ∧
    (rpnFieldOk (nextTokensS ':' arguments) →
     numFieldOk (nextTokensS ':' arguments)[1]? →
     numFieldOk (nextTokensS ':' arguments)[2]? →
     ¬numFieldOk (nextTokensS ':' arguments)[3]? →
       RRDColumnArgs.parse arguments column_name =
         Except.error (rrdInvalidMsg column_name
           "missing or negative resolution")) ∧
    (rpnFieldOk (nextTokensS ':' arguments) →
     numFieldOk (nextTokensS ':' arguments)[1]? →
     numFieldOk (nextTokensS ':' arguments)[2]? →
     numFieldOk (nextTokensS ':' arguments)[3]? →
     ¬maxFieldOk (nextTokensS ':' arguments) →
       RRDColumnArgs.parse arguments column_name =
         Except.error (rrdInvalidMsg column_name
           "Wrong input for max rows")) ∧
    (rpnFieldOk (nextTokensS ':' arguments) →
     numFieldOk (nextTokensS ':' arguments)[1]? →
     numFieldOk (nextTokensS ':' arguments)[2]? →
     numFieldOk (nextTokensS ':' arguments)[3]? →
     maxFieldOk (nextTokensS ':' arguments) →
     ¬noTrailingTok (nextTokensS ':' arguments) →
       RRDColumnArgs.parse arguments column_name =
         Except.error (rrdInvalidMsg column_name "too many arguments")) :=
  ⟨⟨parseRRD_ok_mp _ _, parseRRD_ok_mpr _ _⟩,
   parseRRD_default_max _ _,
   parseRRD_err_rpn _ _,
   parseRRD_err_start _ _,
   parseRRD_err_end _ _,
   parseRRD_err_resolution _ _,
   parseRRD_err_max _ _,
   parseRRD_err_trailing _ _⟩

/-- Witness for C1, at the specification's round-trip example (max-entries
field omitted): construction succeeds with the four encoded fields and
`max_entries` defaulting to 400, and the trailing-token check rejects an
extended encoding with the "too many arguments" message. -/
theorem rrd_args_construction_iff_witness :
    (⟨"fs_used,1024,/", 1426411073, 1426416473, 5, 400⟩ :
        RRDColumnArgs).max_entries = 400 ∧
    RRDColumnArgs.parse "fs_used,1024,/:1426411073:1426416473:5" "rrd" =
      Except.ok ⟨"fs_used,1024,/", 1426411073, 1426416473, 5, 400⟩ ∧
    RRDColumnArgs.parse "fs_used,1024,/:1426411073:1426416473:5:20:x" "rrd" =
      Except.error (rrdInvalidMsg "rrd" "too many arguments") :=
  ⟨(rrd_args_construction_iff "fs_used,1024,/:1426411073:1426416473:5"
      "rrd").2.1 _ (by rfl) (by rfl),
   by rfl,
   (rrd_args_construction_iff "fs_used,1024,/:1426411073:1426416473:5:20:x"
      "rrd").2.2.2.2.2.2.2 (by decide) (by decide) (by decide) (by decide)
      (by decide) (by decide)⟩

lemma xportTimes_bounds (end_ : Int) (step : Nat) :
    ∀ ti, ∀ t ∈ xportTimes end_ step ti, ti ≤ t ∧ t ≤ end_ := by
  intro ti
  induction ti using xportTimes.induct end_ step with
  | case1 ti hstep => simp [xportTimes, hstep]
  | case2 ti hstep hle ih =>
    rw [xportTimes, if_neg hstep, if_pos hle]
    intro t ht
    rcases List.mem_cons.1 ht with rfl | ht
    · exact ⟨le_refl t, hle⟩
    · have := ih t ht
      constructor <;> omega
  | case3 ti hstep hgt => rw [xportTimes, if_neg hstep, if_neg hgt]; simp

lemma xportTimes_sorted (end_ : Int) (step : Nat) (hstep : step ≠ 0) :
    ∀ ti, (xportTimes end_ step ti).Nodup := by
  intro ti
  induction ti using xportTimes.induct end_ step with
  | case1 ti h => exact absurd h hstep
  | case2 ti h hle ih =>
    rw [xportTimes, if_neg h, if_pos hle]
    refine List.nodup_cons.2 ⟨fun hmem => ?_, ih⟩
    have := (xportTimes_bounds end_ step (ti + step) ti hmem).1
    omega
  | case3 ti h hgt => rw [xportTimes, if_neg h, if_neg hgt]; exact List.nodup_nil

lemma mem_xportTimes (end_ : Int) (step : Nat) (hstep : step ≠ 0) :
    ∀ ti t, (t ∈ xportTimes end_ step ti ↔
      ∃ k : Nat, t = ti + (k : Int) * (step : Int) ∧ t ≤ end_) := by
  intro ti
  induction ti using xportTimes.induct end_ step with
  | case1 ti h => exact absurd h hstep
  | case2 ti h hle ih =>
    intro t
    rw [xportTimes, if_neg h, if_pos hle]
    constructor
    · intro ht
      rcases List.mem_cons.1 ht with rfl | ht
      · exact ⟨0, by simp, hle⟩
      · obtain ⟨k, hk, hkle⟩ := (ih t).1 ht
        exact ⟨k + 1, by push_cast [hk]; ring, hkle⟩
    · rintro ⟨k, rfl, hkle⟩
      rcases k with _ | k
      · simp
      · refine List.mem_cons.2 (.inr ((ih _).2 ⟨k, by push_cast; ring, hkle⟩))
  | case3 ti h hgt =>
    intro t
    rw [xportTimes, if_neg h, if_neg hgt]
    simp only [List.not_mem_nil, false_iff]
    rintro ⟨k, rfl, hkle⟩
    have : (0 : Int) ≤ (k : Int) * (step : Int) := by positivity
    omega

lemma xportValues_eq_map {α : Type} (buffer : Nat → α) (end_ : Int)
    (step : Nat) :
    ∀ ti idx, xportValues buffer end_ step ti idx =
      (List.range (xportTimes end_ step ti).length).map
        (fun i => buffer (idx + i)) := by
  intro ti
  induction ti using xportTimes.induct end_ step with
  | case1 ti h => intro idx; rw [xportValues, xportTimes]; simp [h]
  | case2 ti h hle ih =>
    intro idx
    rw [xportValues, xportTimes, if_neg h, if_pos hle, if_neg h, if_pos hle]
    simp only [List.length_cons, List.range_succ_eq_map, List.map_cons,
      List.map_map, Nat.add_zero]
    refine congrArg₂ _ rfl ?_
    rw [ih (idx + 1)]
    refine List.map_congr_left ?_
    intro i hi
    simp [Function.comp]
    ring_nf
  | case3 ti h hgt =>
    intro idx
    rw [xportValues, xportTimes, if_neg h, if_neg hgt, if_neg h, if_neg hgt]
    simp

/-- C2 (amended): when the export call succeeds with exactly one output
column (and the positive step the archive guarantees), the extractor
returns a flat sequence whose first three elements are the returned start
and end instants — each shifted by the given timezone offset — and the
step, followed by exactly one buffered sample per grid point strictly
after the returned start up to and including the returned end (pairwise
distinct timestamps `start+step, start+2*step, ..., ≤ end`); the sequence
length is 3 plus the number of such grid points. -/
theorem rrd_success_vector {α : Type} (res : XportResult α) (tz : Int)
    (hst : res.status = 0) (hcol : res.col_cnt = 1) (hstep : res.step ≠ 0) :
    ((rrdProcessXport res tz).2 =
      RRDValue.timePoint (res.start + tz) ::
        RRDValue.timePoint (res.end_ + tz) ::
          RRDValue.stepVal res.step ::
            (List.range
              (xportTimes res.end_ res.step (res.start + res.step)).length).map
              (fun i => RRDValue.sample (res.buffer i))) ∧
    (∀ t : Int, t ∈ xportTimes res.end_ res.step (res.start + res.step) ↔
      ∃ k : Nat, 1 ≤ k ∧ t = res.start + (k : Int) * (res.step : Int) ∧
        t ≤ res.end_) ∧
    (xportTimes res.end_ res.step (res.start + res.step)).Nodup ∧
    ((rrdProcessXport res tz).2).length =
      3 + (xportTimes res.end_ res.step (res.start + res.step)).length := by
  have hvec : (rrdProcessXport res tz).2 =
      RRDValue.timePoint (res.start + tz) ::
        RRDValue.timePoint (res.end_ + tz) ::
          RRDValue.stepVal res.step ::
            (List.range
              (xportTimes res.end_ res.step (res.start + res.step)).length).map
              (fun i => RRDValue.sample (res.buffer i)) := by
    rw [rrdProcessXport]
    split_ifs with h1 h2
    · exact absurd hst h1
    · exact absurd hcol h2
    · simp only [RRDData.as_vector, xportValues_eq_map, List.map_map]
      refine congrArg _ (congrArg _ (congrArg _ ?_))
      exact List.map_congr_left fun i _ => by simp [Function.comp]
  refine ⟨hvec, ?_, xportTimes_sorted res.end_ res.step hstep _, ?_⟩
  · intro t
    rw [mem_xportTimes res.end_ res.step hstep]
    constructor
    · rintro ⟨k, rfl, hle⟩
      exact ⟨k + 1, by omega, by push_cast; ring, hle⟩
    · rintro ⟨k, hk1, rfl, hle⟩
      obtain ⟨m, rfl⟩ : ∃ m, k = m + 1 := ⟨k - 1, by omega⟩
      exact ⟨m, by push_cast; ring, hle⟩
  · rw [hvec]
    simp
    omega

/-- Witness for C2 at a concrete one-column success: window `[100, 110]`,
step 5, buffer `i ↦ i`, timezone offset 7 — the grid points are 105 and
110, hence the samples `buffer 0` and `buffer 1` follow the three meta
elements. -/
theorem rrd_success_vector_witness :
    (rrdProcessXport
      (⟨0, 100, 110, 5, 1, fun i => (i : Int), "e"⟩ : XportResult Int) 7).2 =
      [RRDValue.timePoint 107, RRDValue.timePoint 117, RRDValue.stepVal 5,
       RRDValue.sample 0, RRDValue.sample 1] := by
  have h := rrd_success_vector
    (⟨0, 100, 110, 5, 1, fun i => (i : Int), "e"⟩ : XportResult Int) 7
    rfl rfl (by decide)
  rw [h.1]
  have e1 : xportTimes ((⟨0, 100, 110, 5, 1, fun i => (i : Int), "e"⟩ :
      XportResult Int)).end_ ((⟨0, 100, 110, 5, 1, fun i => (i : Int), "e"⟩ :
      XportResult Int)).step (((⟨0, 100, 110, 5, 1, fun i => (i : Int), "e"⟩ :
      XportResult Int)).start + ((⟨0, 100, 110, 5, 1, fun i => (i : Int), "e"⟩ :
      XportResult Int)).step) = [105, 110] := by
    simp [xportTimes]
  rw [e1]
  norm_num [List.range_succ]

/-- Counterexample for C2 as stated: at timezone offset 7 the first
element of the returned sequence is the shifted instant 107, not the
returned start instant 100 reported by the export call. -/
theorem rrd_success_vector_counterexample :
    ((rrdProcessXport
      (⟨0, 100, 110, 5, 1, fun i => (i : Int), "e"⟩ : XportResult Int) 7).2)[0]? =
        some (RRDValue.timePoint 107) ∧
    (RRDValue.timePoint 107 : RRDValue Int) ≠ RRDValue.timePoint 100 := by
  constructor
  · norm_num [rrdProcessXport, RRDData.as_vector]
  · decide

/-- C3: on a non-zero export status the extractor logs the access failure
(the warning carrying the library's error string) and returns the
`as_vector` rendering of the untouched default `Data` — start 0, end 0,
step 0 and no sample values.  `rrdProcessXport` is a total function, so
the failure never escapes as an exception: every path, this one included,
returns a well-formed list. -/
theorem rrd_failure_empty_result {α : Type} (res : XportResult α)
    (tz : Int) (hst : res.status ≠ 0) :
    rrdProcessXport res tz =
      ([RRDLog.accessError res.errorMsg],
       (⟨0, 0, 0, []⟩ : RRDData α).as_vector tz) ∧
    (⟨0, 0, 0, []⟩ : RRDData α).as_vector tz =
      [RRDValue.timePoint (0 + tz), RRDValue.timePoint (0 + tz),
       RRDValue.stepVal 0] := by
  constructor
  · rw [rrdProcessXport, if_pos hst]
  · rw [RRDData.as_vector]
    rfl

/-- Witness for C3: a failed export call (status 1) with timezone offset
0 yields exactly the access-error log and the empty three-element
vector. -/
theorem rrd_failure_empty_result_witness :
    rrdProcessXport
        (⟨1, 100, 110, 5, 1, fun i => (i : Int), "boom"⟩ : XportResult Int) 0 =
      ([RRDLog.accessError "boom"],
       [RRDValue.timePoint 0, RRDValue.timePoint 0, RRDValue.stepVal 0]) := by
  have h := rrd_failure_empty_result
    (⟨1, 100, 110, 5, 1, fun i => (i : Int), "boom"⟩ : XportResult Int) 0
    (by decide)
  rw [h.1, h.2]
  norm_num

/-- C8: when the export call succeeds (status 0) but reports a column
count different from one, the extractor logs the mismatch as its only log
entry and still returns the well-formed default vector (start 0, end 0,
step 0, no samples, timezone applied) — a logged inconsistency, not a hard
failure: `rrdProcessXport` is total and returns normally. -/
theorem rrd_colcount_mismatch {α : Type} (res : XportResult α)
    (tz : Int) (hst : res.status = 0) (hcol : res.col_cnt ≠ 1) :
    rrdProcessXport res tz =
      ([RRDLog.colCountMismatch res.col_cnt],
       (⟨0, 0, 0, []⟩ : RRDData α).as_vector tz) ∧
    (⟨0, 0, 0, []⟩ : RRDData α).as_vector tz =
      [RRDValue.timePoint (0 + tz), RRDValue.timePoint (0 + tz),
       RRDValue.stepVal 0] := by
  constructor
  · rw [rrdProcessXport]
    split_ifs with h1
    · exact absurd hst h1
    · rfl
  · rw [RRDData.as_vector]
    rfl

/-- Witness for C8: a successful call that reports 3 columns yields the
column-count log entry and the default vector, shifted by offset 11. -/
theorem rrd_colcount_mismatch_witness :
    rrdProcessXport
        (⟨0, 100, 110, 5, 3, fun i => (i : Int), "e"⟩ : XportResult Int) 11 =
      ([RRDLog.colCountMismatch 3],
       [RRDValue.timePoint 11, RRDValue.timePoint 11, RRDValue.stepVal 0]) := by
  have h := rrd_colcount_mismatch
    (⟨0, 100, 110, 5, 3, fun i => (i : Int), "e"⟩ : XportResult Int) 11
    rfl (by decide)
  rw [h.1, h.2]
  norm_num

/-- C10: for every export outcome the timezone offset is added to exactly
the two leading instants of the returned sequence — the remainder (step
and samples) is independent of the offset — and on the failure path the
zero start and end are likewise shifted, giving `[offset, offset, 0]`. -/
theorem rrd_timezone_shift {α : Type} (res : XportResult α) (tz : Int) :
    (∃ s e rest, (rrdProcessXport res 0).2 =
        RRDValue.timePoint s :: RRDValue.timePoint e :: rest ∧
      (rrdProcessXport res tz).2 =
        RRDValue.timePoint (s + tz) :: RRDValue.timePoint (e + tz) :: rest) ∧
    (res.status ≠ 0 → (rrdProcessXport res tz).2 =
      [RRDValue.timePoint tz, RRDValue.timePoint tz, RRDValue.stepVal 0]) := by
  constructor
  · rw [rrdProcessXport, rrdProcessXport]
    split_ifs with h1 h2
    · exact ⟨0, 0, [RRDValue.stepVal 0],
        by simp [RRDData.as_vector], by simp [RRDData.as_vector]⟩
    · exact ⟨0, 0, [RRDValue.stepVal 0],
        by simp [RRDData.as_vector], by simp [RRDData.as_vector]⟩
    · exact ⟨res.start, res.end_,
        RRDValue.stepVal res.step ::
          (xportValues res.buffer res.end_ res.step
            (res.start + res.step) 0).map RRDValue.sample,
        by simp [RRDData.as_vector], by simp [RRDData.as_vector]⟩
  · intro hst
    rw [rrdProcessXport, if_pos hst, RRDData.as_vector]
    norm_num

/-- Witness for C10 on the failure path: status 1 and offset 9 produce
`[9, 9, 0]`. -/
theorem rrd_timezone_shift_witness :
    (rrdProcessXport
        (⟨1, 100, 110, 5, 1, fun i => (i : Int), "e"⟩ : XportResult Int) 9).2 =
      [RRDValue.timePoint 9, RRDValue.timePoint 9, RRDValue.stepVal 0] :=
  (rrd_timezone_shift
    (⟨1, 100, 110, 5, 1, fun i => (i : Int), "e"⟩ : XportResult Int) 9).2
    (by decide)

lemma convertRPN_foldl (ml : String → MetricLocation) (toks : List String) :
    ∀ st0 : RPNState, toks.foldl (rpnStep ml) st0 =
      ⟨(specRewritten ml st0.next_variable_number toks).foldl joinTok
         st0.converted_rpn,
       st0.next_variable_number + resolvedCount ml toks,
       st0.defs ++ specDefs ml st0.next_variable_number toks,
       (specPaths ml toks).foldl insertUnique st0.touched_rrds,
       st0.rewritten ++ specRewritten ml st0.next_variable_number toks⟩ := by
  induction toks with
  | nil =>
    intro st0
    simp [specRewritten, specDefs, specPaths, resolvedCount]
  | cons t ts ih =>
    intro st0
    rw [List.foldl_cons, ih]
    by_cases hv : isVariableName t
    · by_cases hl : (ml (getVarAndCF t).1).path = "" ||
        (ml (getVarAndCF t).1).data_source_name = ""
      · have hres : tokenResolves ml t = false := by
          simp [tokenResolves, hv, hl]
        simp only [rpnStep, hv, hres, specRewritten, specDefs, specPaths,
          resolvedCount, List.filter_cons, if_neg, Bool.not_true,
          List.foldl_cons, List.append_assoc, List.singleton_append]
        simp [hres, hv, hl, joinTok]
      · have hres : tokenResolves ml t = true := by
          simp only [tokenResolves, hv, Bool.true_and]
          simp only [Bool.not_eq_true']
          exact (Bool.not_eq_true _).mp (by simp [hl])
        simp only [rpnStep, hv, hl, specRewritten, specDefs, specPaths,
          resolvedCount, List.filter_cons, hres, List.foldl_cons]
        simp [joinTok, hres]
        omega
    · have hres : tokenResolves ml t = false := by simp [tokenResolves, hv]
      simp only [rpnStep, hv, specRewritten, specDefs, specPaths,
        resolvedCount, List.filter_cons, hres, List.foldl_cons]
      simp [joinTok, hres, hv]

lemma specRewritten_length (ml : String → MetricLocation) :
    ∀ (toks : List String) (counter : Nat),
      (specRewritten ml counter toks).length = toks.length := by
  intro toks
  induction toks with
  | nil => intro counter; simp [specRewritten]
  | cons t ts ih =>
    intro counter
    rw [specRewritten]
    split_ifs <;> simp [ih]

lemma specRewritten_getElem (ml : String → MetricLocation) :
    ∀ (toks : List String) (counter i : Nat) (h : i < toks.length),
      (specRewritten ml counter toks)[i]? = some (
        if tokenResolves ml toks[i] then
          "var_" ++ toString (counter + resolvedCount ml (toks.take (i + 1)))
        else if isVariableName toks[i] then
          replace_all (getVarAndCF toks[i]).1 "." '_'
        else toks[i]) := by
  intro toks
  induction toks with
  | nil => intro counter i h; exact absurd h (by simp)
  | cons t ts ih =>
    intro counter i h
    rcases i with _ | i
    · rcases hr : tokenResolves ml t with _ | _
      · rcases hv : isVariableName t with _ | _ <;>
          simp [specRewritten, hr, hv]
      · simp [specRewritten, hr, resolvedCount]
    · have hi : i < ts.length := by simpa using h
      rcases hr : tokenResolves ml t with _ | _
      · rcases hv : isVariableName t with _ | _ <;>
          simpa [specRewritten, hr, hv, resolvedCount] using ih counter i hi
      · rw [specRewritten]
        simp only [hr, if_pos, List.getElem?_cons_succ, List.getElem_cons_succ,
          List.take_succ_cons]
        rw [ih (counter + 1) i hi]
        rcases hr2 : tokenResolves ml (ts[i]) with _ | _
        · simp [hr2]
        · simp only [hr2, if_pos, resolvedCount, List.filter_cons, hr]
          have harith : counter + 1 +
              (List.filter (tokenResolves ml) (List.take (i + 1) ts)).length =
              counter + (t :: List.filter (tokenResolves ml)
                (List.take (i + 1) ts)).length := by
            simp only [List.length_cons]
            omega
          rw [harith]

lemma isVariableName_varPrefixed (s : String) :
    isVariableName ("var_" ++ s) = true := by
  have hd : ("var_" ++ s).data = 'v' :: ('a' :: ('r' :: ('_' :: s.data))) := by
    have := String.data_append "var_" s
    simpa using this
  rw [isVariableName, hd]
  simp [isOperatorChar, isNumberPartChar]

lemma foldl_joinTok_nonempty :
    ∀ (l : List String) (acc : String), acc ≠ "" →
      l.foldl joinTok acc = l.foldl (fun a b => a ++ "," ++ b) acc := by
  intro l
  induction l with
  | nil => intro acc h; rfl
  | cons t ts ih =>
    intro acc h
    rw [List.foldl_cons, List.foldl_cons, joinTok, if_neg h]
    refine ih _ ?_
    intro he
    have hlen := congrArg String.length he
    simp [String.length_append] at hlen
    exact absurd hlen.1.2 (by decide)

lemma specDefs_length (ml : String → MetricLocation) :
    ∀ (toks : List String) (counter : Nat),
      (specDefs ml counter toks).length = resolvedCount ml toks := by
  intro toks
  induction toks with
  | nil => intro counter; simp [specDefs, resolvedCount]
  | cons t ts ih =>
    intro counter
    rw [specDefs]
    rcases hr : tokenResolves ml t with _ | _ <;>
      simp [hr, resolvedCount, List.filter_cons, ih]

lemma specDefs_mem (ml : String → MetricLocation) :
    ∀ (toks : List String) (counter i : Nat) (h : i < toks.length),
      tokenResolves ml toks[i] = true →
      ("DEF:" ++ ("var_" ++
          toString (counter + resolvedCount ml (toks.take (i + 1)))) ++ "=" ++
        (ml (getVarAndCF toks[i]).1).path ++ ":" ++
        (ml (getVarAndCF toks[i]).1).data_source_name ++ ":" ++
        (getVarAndCF toks[i]).2) ∈ specDefs ml counter toks := by
  intro toks
  induction toks with
  | nil => intro counter i h; exact absurd h (by simp)
  | cons t ts ih =>
    intro counter i h hres
    rcases i with _ | i
    · simp only [List.getElem_cons_zero] at hres
      simp [specDefs, hres, resolvedCount, List.filter_cons]
    · have hi : i < ts.length := by simpa using h
      simp only [List.getElem_cons_succ] at hres
      rw [specDefs]
      rcases hr : tokenResolves ml t with _ | _
      · simpa [hr, resolvedCount, List.filter_cons] using ih counter i hi hres
      · refine List.mem_cons.2 (.inr ?_)
        have := ih (counter + 1) i hi hres
        have harith : counter + 1 + resolvedCount ml (ts.take (i + 1)) =
            counter + resolvedCount ml ((t :: ts).take (i + 1 + 1)) := by
          simp [resolvedCount, List.filter_cons, hr]
          omega
        rwa [harith] at this

/-- C7 (amended): in the rewritten RPN token sequence, every token that the
classifier leaves alone (pure numeric literals and operator-initial
tokens) keeps its position unchanged; a variable token resolving to a
non-empty storage location becomes the sequential internal name `var_N`
(N = running count of resolved variables) and records the
`DEF:var_N=path:data-source:CF` argv entry, the consolidation function
taken from the `.max`/`.min`/`.average` suffix (MAX by default); an
unresolved variable token becomes its dot-to-underscore sanitized name and
records nothing (the entry count equals the resolved count); the rewritten
sequence has one token per original token in order, re-joined with commas
whenever no rewritten token is empty; and each fresh `var_N` name differs
from every numeric or operator-initial token of the expression (though it
can coincide with a variable token that is literally of the form
`var_K`). -/
theorem rrd_rpn_rewrite (ml : String → MetricLocation) (rpn : String) :
    ((convertRPN ml rpn).rewritten =
      specRewritten ml 0 (nextTokensS ',' rpn)) ∧
    ((convertRPN ml rpn).rewritten.length = (nextTokensS ',' rpn).length) ∧
    (∀ i, ∀ h : i < (nextTokensS ',' rpn).length,
      (isVariableName (nextTokensS ',' rpn)[i] = false →
        (convertRPN ml rpn).rewritten[i]? =
          some (nextTokensS ',' rpn)[i]) ∧
      (isVariableName (nextTokensS ',' rpn)[i] = true →
       tokenResolves ml (nextTokensS ',' rpn)[i] = false →
        (convertRPN ml rpn).rewritten[i]? =
          some (replace_all (getVarAndCF (nextTokensS ',' rpn)[i]).1
            "." '_')) ∧
      (tokenResolves ml (nextTokensS ',' rpn)[i] = true →
        (convertRPN ml rpn).rewritten[i]? =
          some ("var_" ++ toString
            (resolvedCount ml ((nextTokensS ',' rpn).take (i + 1)))) ∧
        ("DEF:" ++ ("var_" ++ toString
            (resolvedCount ml ((nextTokensS ',' rpn).take (i + 1)))) ++ "=" ++
          (ml (getVarAndCF (nextTokensS ',' rpn)[i]).1).path ++ ":" ++
          (ml (getVarAndCF (nextTokensS ',' rpn)[i]).1).data_source_name ++
          ":" ++ (getVarAndCF (nextTokensS ',' rpn)[i]).2) ∈
            (convertRPN ml rpn).defs)) ∧
    ((convertRPN ml rpn).defs.length =
      resolvedCount ml (nextTokensS ',' rpn)) ∧
    (∀ i, ∀ h : i < (nextTokensS ',' rpn).length,
      tokenResolves ml (nextTokensS ',' rpn)[i] = true →
      ∀ t ∈ nextTokensS ',' rpn, isVariableName t = false →
        (convertRPN ml rpn).rewritten[i]? ≠ some t) ∧
    ((∀ t ∈ (convertRPN ml rpn).rewritten, t ≠ "") →
      (convertRPN ml rpn).converted_rpn =
        joinComma (convertRPN ml rpn).rewritten) := by
  have hconv := convertRPN_foldl ml (nextTokensS ',' rpn) ⟨"", 0, [], [], []⟩
  have hrw : (convertRPN ml rpn).rewritten =
      specRewritten ml 0 (nextTokensS ',' rpn) := by
    rw [convertRPN, hconv]
    try rfl
  have hdefs : (convertRPN ml rpn).defs =
      specDefs ml 0 (nextTokensS ',' rpn) := by
    rw [convertRPN, hconv]
    try rfl
  have hjoin : (convertRPN ml rpn).converted_rpn =
      (specRewritten ml 0 (nextTokensS ',' rpn)).foldl joinTok "" := by
    rw [convertRPN, hconv]
    try rfl
  have hresolved : ∀ i, ∀ h : i < (nextTokensS ',' rpn).length,
      tokenResolves ml (nextTokensS ',' rpn)[i] = true →
      (convertRPN ml rpn).rewritten[i]? =
        some ("var_" ++ toString
          (resolvedCount ml ((nextTokensS ',' rpn).take (i + 1)))) := by
    intro i h hres
    rw [hrw, specRewritten_getElem ml (nextTokensS ',' rpn) 0 i h]
    simp [hres]
  refine ⟨hrw, ?_, ?_, ?_, ?_, ?_⟩
  · rw [hrw, specRewritten_length]
  · intro i h
    refine ⟨?_, ?_, fun hres => ⟨hresolved i h hres, ?_⟩⟩
    · intro hv
      have hres : tokenResolves ml (nextTokensS ',' rpn)[i] = false := by
        simp [tokenResolves, hv]
      rw [hrw, specRewritten_getElem ml (nextTokensS ',' rpn) 0 i h]
      simp [hres, hv]
    · intro hv hres
      rw [hrw, specRewritten_getElem ml (nextTokensS ',' rpn) 0 i h]
      simp [hres, hv]
    · rw [hdefs]
      simpa using specDefs_mem ml (nextTokensS ',' rpn) 0 i h hres
  · rw [hdefs, specDefs_length]
  · intro i h hres t ht hv heq
    rw [hresolved i h hres] at heq
    have := Option.some.inj heq
    rw [← this] at hv
    rw [isVariableName_varPrefixed] at hv
    exact Bool.noConfusion hv
  · intro hne
    rw [hjoin, ← hrw]
    rcases hlist : (convertRPN ml rpn).rewritten with _ | ⟨t, ts⟩
    · rfl
    · rw [joinComma, List.foldl_cons]
      have ht : t ≠ "" := hne t (by rw [hlist]; exact List.mem_cons_self t ts)
      have h0 : joinTok "" t = t := rfl
      rw [h0]
      exact foldl_joinTok_nonempty ts t ht

/-- Witness for C7 on the specification's example `fs_used,1024,*` with
`fs_used` resolved: the freshly allocated name `var_1` replaces the
variable token, the operand/operator tokens and their order are preserved,
the `DEF` binding records path, data source and default MAX, and the fresh
name differs from the numeric token `1024` and the operator token `*`. -/
theorem rrd_rpn_rewrite_witness :
    (convertRPN exampleResolver "fs_used,1024,*").converted_rpn =
      "var_1,1024,*" ∧
    (convertRPN exampleResolver "fs_used,1024,*").rewritten =
      ["var_1", "1024", "*"] ∧
    (convertRPN exampleResolver "fs_used,1024,*").defs =
      ["DEF:var_1=/p/fs_used.rrd:1:MAX"] ∧
    (convertRPN exampleResolver "fs_used,1024,*").rewritten[0]? ≠
      some "1024" ∧
    (convertRPN exampleResolver "fs_used,1024,*").rewritten[0]? ≠
      some "*" := by
  refine ⟨by decide, by decide, by decide, ?_, ?_⟩
  · exact (rrd_rpn_rewrite exampleResolver "fs_used,1024,*").2.2.2.2.1 0
      (by decide) (by decide) "1024" (by decide) (by decide)
  · exact (rrd_rpn_rewrite exampleResolver "fs_used,1024,*").2.2.2.2.1 0
      (by decide) (by decide) "*" (by decide) (by decide)

/-- Counterexample for C7 as stated: under a resolver where the metric
literally named `var_1` has a storage location, rewriting `var_1,1024,*`
allocates the fresh internal name `var_1` — equal to a token already in
the expression — so fresh names do not differ from every pre-existing
token. -/
theorem rrd_rpn_rewrite_counterexample :
    (convertRPN collidingResolver "var_1,1024,*").defs =
      ["DEF:var_1=p:d:MAX"] ∧
    (convertRPN collidingResolver "var_1,1024,*").rewritten[0]? =
      some "var_1" ∧
    "var_1" ∈ nextTokensS ',' "var_1,1024,*" := by
  refine ⟨by decide, by decide, by decide⟩

lemma mem_emitForEach (f : String → List RequestLine) :
    ∀ (cs : List String) (line : RequestLine),
      line ∈ emitForEach f cs ↔ ∃ c ∈ cs, line ∈ f c := by
  intro cs
  induction cs with
  | nil => intro line; simp [emitForEach]
  | cons c cs ih =>
    intro line
    simp [emitForEach, ih]

lemma emitPinnedFilter_shape (query : ECQuery) (column_name : String)
    (line : RequestLine) (hmem : line ∈ emitPinnedFilter query column_name) :
    ∃ v, line = RequestLine.filterLine column_name "=" v := by
  rw [emitPinnedFilter] at hmem
  rcases h1 : query.stringValueRestrictionFor column_name with _ | svr <;>
    simp only [h1] at hmem
  · rcases h2 : query.greatestLowerBoundFor column_name with _ | glb <;>
      simp only [h2] at hmem
    · simp at hmem
    · rcases h3 : query.leastUpperBoundFor column_name with _ | lub <;>
        simp only [h3] at hmem
      · simp at hmem
      · split_ifs at hmem with h4
        · simp at hmem
          exact ⟨toString glb, hmem⟩
        · simp at hmem
  · simp at hmem
    exact ⟨svr, hmem⟩

lemma emitGreppingFilterFor_shape (query : ECQuery) (column_name : String)
    (line : RequestLine)
    (hmem : line ∈ emitGreppingFilterFor query column_name) :
    ∃ o v, line = RequestLine.filterLine column_name o v ∧
      (o = "=" ∨ o = "~" ∨ o = "=~" ∨ o = "~~") := by
  rw [emitGreppingFilterFor] at hmem
  have hpinned : line ∈ emitPinnedFilter query column_name →
      ∃ o v, line = RequestLine.filterLine column_name o v ∧
        (o = "=" ∨ o = "~" ∨ o = "=~" ∨ o = "~~") := by
    intro hp
    obtain ⟨v, rfl⟩ := emitPinnedFilter_shape query column_name line hp
    exact ⟨"=", v, rfl, .inl rfl⟩
  rcases hc : query.conjunctsFor column_name with _ | ⟨cj, cjs⟩ <;>
    rw [hc] at hmem
  · exact hpinned hmem
  · rcases cj with ⟨oper, value⟩ | _
    · rcases cjs with _ | ⟨cj2, cjs2⟩
      · rcases oper <;> simp_all [forwardableOp, opString] <;>
          exact hpinned (by simp [hmem])
      · exact hpinned hmem
    · rcases cjs with _ | ⟨cj2, cjs2⟩
      · exact hpinned hmem
      · exact hpinned hmem

lemma emitTimeRangeFilter_mem (query : ECQuery) (line : RequestLine) :
    line ∈ emitTimeRangeFilter query ↔
      ((∃ g, query.greatestLowerBoundFor "history_time" = some g ∧
        line = RequestLine.filterLine "history_time" ">=" (toString g)) ∨
       (∃ l, query.leastUpperBoundFor "history_time" = some l ∧
        line = RequestLine.filterLine "history_time" "<=" (toString l))) := by
  rw [emitTimeRangeFilter]
  rcases h1 : query.greatestLowerBoundFor "history_time" with _ | glb <;>
    rcases h2 : query.leastUpperBoundFor "history_time" with _ | lub <;>
    simp [h1, h2] <;>
    aesop

lemma mem_ecColumns_foldl :
    ∀ (cols acc : List String) (c : String),
      c ∈ cols.foldl
        (fun acc x => if x ∈ special_columns then insertUnique acc x else acc)
        acc ↔
      c ∈ acc ∨ (c ∈ special_columns ∧ c ∈ cols) := by
  intro cols
  induction cols with
  | nil => intro acc c; simp
  | cons x xs ih =>
    intro acc c
    rw [List.foldl_cons]
    have hins : ∀ l : List String, c ∈ insertUnique l x ↔ c ∈ l ∨ c = x := by
      intro l
      rw [insertUnique]
      split_ifs with hin
      · constructor
        · exact fun h => .inl h
        · rintro (h | rfl)
          · exact h
          · exact hin
      · simp [List.mem_append]
    by_cases hx : x ∈ special_columns
    · rw [if_pos hx, ih, hins]
      simp only [List.mem_cons]
      aesop
    · rw [if_neg hx, ih]
      simp only [List.mem_cons]
      aesop

/-- C5: the `Columns:` line of the bridge request carries exactly the
query's requested columns plus — whenever the table declares them — the
special columns `event_host`, `event_contact_groups_precedence` and
`event_contact_groups`, with every `host_`-prefixed name excluded. -/
theorem ec_columns_header (table : ECTable) (query : ECQuery) :
    RequestLine.columnsHeader (ecRequestColumns table query) ∈
      sendRequest table query ∧
    (∀ c, c ∈ ecRequestColumns table query ↔
      ((c ∈ query.allColumns ∨ (c ∈ special_columns ∧ c ∈ table.columns)) ∧
       starts_with c "host_" = false)) ∧
    (∀ c ∈ ecRequestColumns table query, starts_with c "host_" = false) := by
  refine ⟨by simp [sendRequest], ?_, ?_⟩
  · intro c
    rw [ecRequestColumns]
    simp only [List.mem_filter, mem_ecColumns_foldl, Bool.not_eq_true']
  · intro c hc
    rw [ecRequestColumns] at hc
    simp only [List.mem_filter, Bool.not_eq_true'] at hc
    exact hc.2

/-- Witness for C5: a concrete table declaring the three special columns
(and a `host_name` column) with a query requesting `event_text` and
`host_address` — the special column `event_host` is emitted although not
requested, and no emitted column starts with `host_`. -/
theorem ec_columns_header_witness :
    "event_host" ∈ ecRequestColumns
      ⟨"eventconsoleevents",
       ["event_id", "event_host", "event_contact_groups_precedence",
        "event_contact_groups", "host_name"]⟩
      ⟨["event_text", "host_address"], fun _ => none, fun _ => none,
       fun _ => none, fun _ => []⟩ ∧
    (∀ c ∈ ecRequestColumns
      ⟨"eventconsoleevents",
       ["event_id", "event_host", "event_contact_groups_precedence",
        "event_contact_groups", "host_name"]⟩
      ⟨["event_text", "host_address"], fun _ => none, fun _ => none,
       fun _ => none, fun _ => []⟩, starts_with c "host_" = false) :=
  ⟨((ec_columns_header _ _).2.1 "event_host").mpr
    ⟨Or.inr ⟨by decide, by decide⟩, by decide⟩,
   (ec_columns_header _ _).2.2⟩

lemma mem_sendRequest_filterLine (table : ECTable) (query : ECQuery)
    (c o v : String) :
    RequestLine.filterLine c o v ∈ sendRequest table query ↔
      (RequestLine.filterLine c o v ∈ emitTimeRangeFilter query ∨
       RequestLine.filterLine c o v ∈ emitGreppingFilter query) := by
  rw [sendRequest]
  simp [List.mem_cons, List.mem_append]

/-- C4: in the bridge request, a `Filter: history_time >= g` line is
emitted exactly when the query's filter tree yields the greatest lower
bound `g` for `history_time`, and a `Filter: history_time <= l` line
exactly when it yields the least upper bound `l`; the per-column grepping
emission coincides with the claim's policy (`greppingFilterSpec`):
verbatim forwarding exactly for a single comparison with operator
equal / matches / equal-icase / matches-icase, otherwise an `=` filter
exactly when the column is pinned to one exact value (string-value
restriction or equal bounds); and every filter line of the request is
either one of the two `history_time` bound lines or a grepping line whose
operator is `=`, `~`, `=~` or `~~` — comparisons with other operators and
ambiguous or disjunctive constraints are never forwarded. -/
theorem ec_filter_pushdown (table : ECTable) (query : ECQuery) :
    (∀ s, RequestLine.filterLine "history_time" ">=" s ∈
        sendRequest table query ↔
      ∃ g, query.greatestLowerBoundFor "history_time" = some g ∧
        s = toString g) ∧
    (∀ s, RequestLine.filterLine "history_time" "<=" s ∈
        sendRequest table query ↔
      ∃ l, query.leastUpperBoundFor "history_time" = some l ∧
        s = toString l) ∧
    (∀ column_name, emitGreppingFilterFor query column_name =
      greppingFilterSpec query column_name) ∧
    (∀ c o v, RequestLine.filterLine c o v ∈ sendRequest table query →
      (c = "history_time" ∧ (o = ">=" ∨ o = "<=")) ∨
      (c ∈ grepping_filters ∧
        (o = "=" ∨ o = "~" ∨ o = "=~" ∨ o = "~~"))) := by
  have hgrep_shape : ∀ c o v,
      RequestLine.filterLine c o v ∈ emitGreppingFilter query →
      c ∈ grepping_filters ∧ (o = "=" ∨ o = "~" ∨ o = "=~" ∨ o = "~~") := by
    intro c o v hmem
    rw [emitGreppingFilter, mem_emitForEach] at hmem
    obtain ⟨col, hcol, hline⟩ := hmem
    obtain ⟨o2, v2, heq, ho2⟩ :=
      emitGreppingFilterFor_shape query col _ hline
    obtain ⟨rfl, rfl, rfl⟩ : c = col ∧ o = o2 ∧ v = v2 := by
      injection heq with h1 h2 h3
      exact ⟨h1, h2, h3⟩
    exact ⟨hcol, ho2⟩
  refine ⟨?_, ?_, ?_, ?_⟩
  · intro s
    rw [mem_sendRequest_filterLine]
    constructor
    · rintro (htr | hgr)
      · rw [emitTimeRangeFilter_mem] at htr
        rcases htr with ⟨g, hg, heq⟩ | ⟨l, hl, heq⟩
        · injection heq with h1 h2 h3
          exact ⟨g, hg, h3⟩
        · injection heq with h1 h2 h3
          exact absurd h2 (by decide)
      · obtain ⟨hc, _⟩ := hgrep_shape _ _ _ hgr
        exact absurd hc (by decide)
    · rintro ⟨g, hg, rfl⟩
      exact .inl ((emitTimeRangeFilter_mem query _).2 (.inl ⟨g, hg, rfl⟩))
  · intro s
    rw [mem_sendRequest_filterLine]
    constructor
    · rintro (htr | hgr)
      · rw [emitTimeRangeFilter_mem] at htr
        rcases htr with ⟨g, hg, heq⟩ | ⟨l, hl, heq⟩
        · injection heq with h1 h2 h3
          exact absurd h2 (by decide)
        · injection heq with h1 h2 h3
          exact ⟨l, hl, h3⟩
      · obtain ⟨hc, _⟩ := hgrep_shape _ _ _ hgr
        exact absurd hc (by decide)
    · rintro ⟨l, hl, rfl⟩
      exact .inl ((emitTimeRangeFilter_mem query _).2 (.inr ⟨l, hl, rfl⟩))
  · intro column_name
    rw [emitGreppingFilterFor, greppingFilterSpec]
    rcases hc : query.conjunctsFor column_name with _ | ⟨cj, cjs⟩
    · rw [emitPinnedFilter]
    · rcases cj with ⟨oper, value⟩ | _
      · rcases cjs with _ | ⟨cj2, cjs2⟩
        · rcases oper <;> simp [forwardableOp, emitPinnedFilter]
        · rw [emitPinnedFilter]
      · rcases cjs with _ | ⟨cj2, cjs2⟩ <;> rw [emitPinnedFilter]
  · intro c o v hmem
    rw [mem_sendRequest_filterLine] at hmem
    rcases hmem with htr | hgr
    · rw [emitTimeRangeFilter_mem] at htr
      rcases htr with ⟨g, hg, heq⟩ | ⟨l, hl, heq⟩ <;>
        injection heq with h1 h2 h3
      · exact .inl ⟨h1, .inl h2⟩
      · exact .inl ⟨h1, .inr h2⟩
    · exact .inr (hgrep_shape _ _ _ hgr)

/-- Witness for C4: both `history_time` bound lines appear, and the
single `event_id = 42` comparison is forwarded verbatim. -/
theorem ec_filter_pushdown_witness :
    RequestLine.filterLine "history_time" ">=" "123" ∈
      sendRequest pushdownWitnessTable pushdownWitnessQuery ∧
    RequestLine.filterLine "history_time" "<=" "456" ∈
      sendRequest pushdownWitnessTable pushdownWitnessQuery ∧
    emitGreppingFilterFor pushdownWitnessQuery "event_id" =
      [RequestLine.filterLine "event_id" "=" "42"] :=
  ⟨((ec_filter_pushdown pushdownWitnessTable pushdownWitnessQuery).1
      "123").mpr ⟨123, by decide, by decide⟩,
   ((ec_filter_pushdown pushdownWitnessTable pushdownWitnessQuery).2.1
      "456").mpr ⟨456, by decide, by decide⟩,
   by
    rw [(ec_filter_pushdown pushdownWitnessTable pushdownWitnessQuery).2.2.1
      "event_id"]
    decide⟩

lemma answerQueryScan_eq {ρ : Type} (is_authorized process : ρ → Bool) :
    ∀ rows : List ρ,
      answerQueryScan is_authorized process rows =
        ((stoppedRows is_authorized process rows).filter is_authorized,
         stoppedRows is_authorized process rows) := by
  intro rows
  induction rows with
  | nil => simp [answerQueryScan, stoppedRows]
  | cons g rest ih =>
    rw [answerQueryScan, stoppedRows]
    rcases ha : is_authorized g with _ | _
    · simp only [Bool.false_and, if_neg, ih]
      simp [List.filter_cons, ha]
    · rcases hp : process g with _ | _
      · simp [ha, hp, List.filter_cons]
      · simp [ha, hp, ih, List.filter_cons]

lemma stoppedRows_leading {ρ : Type} (is_authorized process : ρ → Bool) :
    ∀ rows : List ρ,
      stoppedRows is_authorized process rows <+: rows := by
  intro rows
  induction rows with
  | nil => simp [stoppedRows]
  | cons g rest ih =>
    rw [stoppedRows]
    split_ifs
    · exact ⟨rest, rfl⟩
    · exact (List.prefix_cons_inj g).2 ih

lemma receiveReplyScan_eq
    (is_authorized process : List (String × String) → Bool) :
    ∀ (dataLines : List String) (headers : List String),
      receiveReplyScan is_authorized process false headers dataLines =
        answerQueryScan is_authorized process
          ((dataLines.takeWhile (fun l => l ≠ "")).map
            (fun l => buildECRow headers (nextTokensS '\t' l))) := by
  intro dataLines
  induction dataLines with
  | nil => intro headers; simp [receiveReplyScan, answerQueryScan]
  | cons line rest ih =>
    intro headers
    rw [receiveReplyScan]
    by_cases hl : line = ""
    · simp [hl, List.takeWhile_cons, answerQueryScan]
    · rcases ha : is_authorized (buildECRow headers (nextTokensS '\t' line))
        with _ | _ <;>
      rcases hp : process (buildECRow headers (nextTokensS '\t' line))
        with _ | _ <;>
        simp [answerQueryScan, receiveReplyScan, List.takeWhile_cons, hl,
          ha, hp, ih headers]

/-- C6: for both scan loops — the local table scan
(`TableServiceGroups::answerQuery`) and the bridge's reply loop
(`ECTableConnection::receiveReply`) — the rows handed to
`query.processDataset` are exactly the authorized rows of the prefix up to
and including the first authorized row on which `processDataset` returns
false, in iteration order; the rows whose authorization predicate is
evaluated are exactly that prefix, which is a prefix of the row sequence —
so unauthorized rows are skipped without being rendered and nothing after
the stopping row is authorization-checked or rendered.  The reply loop
additionally parses the first line as the tab-separated header and stops
at an empty line or stream end. -/
theorem table_scan_early_termination :
    (∀ (ρ : Type) (is_authorized process : ρ → Bool) (rows : List ρ),
      answerQueryScan is_authorized process rows =
        ((stoppedRows is_authorized process rows).filter is_authorized,
         stoppedRows is_authorized process rows) ∧
      stoppedRows is_authorized process rows <+: rows) ∧
    (∀ (is_authorized process : List (String × String) → Bool)
       (headerLine : String) (dataLines : List String),
      headerLine ≠ "" →
      receiveReply is_authorized process (headerLine :: dataLines) =
        answerQueryScan is_authorized process
          ((dataLines.takeWhile (fun l => l ≠ "")).map
            (fun l => buildECRow (nextTokensS '\t' headerLine)
              (nextTokensS '\t' l)))) := by
  constructor
  · intro ρ is_authorized process rows
    exact ⟨answerQueryScan_eq is_authorized process rows,
           stoppedRows_leading is_authorized process rows⟩
  · intro is_authorized process headerLine dataLines hne
    rw [receiveReply, receiveReplyScan]
    simp only [if_neg hne, if_pos rfl]
    exact receiveReplyScan_eq is_authorized process dataLines _

/-- Witness for C6 on the reply loop: header `event_host, history_line`,
three data rows, a terminating empty line and a row beyond it.  Row `b` is
unauthorized and skipped, row `c` stops processing, row `d` is past the
stopping row and the empty line: processed rows are `a` and `c`,
authorization was evaluated exactly on `a`, `b`, `c`. -/
theorem table_scan_early_termination_witness :
    receiveReply
      (fun row => !(row.contains ("event_host", "b")))
      (fun row => !(row.contains ("event_host", "c")))
      ["event_host\thistory_line", "a\t1", "b\t2", "c\t3", "", "d\t4"] =
      ([[("event_host", "a"), ("history_line", "1")],
        [("event_host", "c"), ("history_line", "3")]],
       [[("event_host", "a"), ("history_line", "1")],
        [("event_host", "b"), ("history_line", "2")],
        [("event_host", "c"), ("history_line", "3")]]) := by
  rw [table_scan_early_termination.2
    (fun row => !(row.contains ("event_host", "b")))
    (fun row => !(row.contains ("event_host", "c")))
    "event_host\thistory_line" ["a\t1", "b\t2", "c\t3", "", "d\t4"]
    (by decide)]
  decide

/-- C9: when the event daemon is enabled, `TableEventConsole::answerQuery`
invokes the connection's `run` exactly once (no automatic retry); a
runtime error from the connection is reported to the query as a
bad-gateway error with the error's message, and the model is a total
function — the exception does not escape the call. -/
theorem ec_answer_query_gateway (enabled : Bool)
    (outcome : Except String Unit) :
    (tableECAnswerQuery enabled outcome).runCalls ≤ 1 ∧
    (enabled = true → ∀ e, outcome = Except.error e →
      tableECAnswerQuery enabled outcome = ⟨1, some e⟩) ∧
    (enabled = true → outcome = Except.ok () →
      tableECAnswerQuery enabled outcome = ⟨1, none⟩) := by
  rcases enabled with _ | _ <;> rcases outcome with e | u <;>
    simp [tableECAnswerQuery]

/-- Witness for C9: a refused connection surfaces as a bad-gateway report
with the error message, after exactly one `run` attempt. -/
theorem ec_answer_query_gateway_witness :
    tableECAnswerQuery true (Except.error "Cannot connect to event daemon") =
      ⟨1, some "Cannot connect to event daemon"⟩ :=
  (ec_answer_query_gateway true
    (Except.error "Cannot connect to event daemon")).2.1 rfl
    "Cannot connect to event daemon" rfl
